import Mathlib

/-
Verification of the flage subcommand iterator and resettable-value layer.

The Go sources embedded here:
  - flagSetIterator (Next, Advance, findSet), ErrNoMatchingFlagSet,
    ErrUnknownCommand from the chaining module;
  - the flag.Value implementations StringSlice (accumulating, Set appends
    unconditionally, Reset allocates a fresh empty slice) and the generic
    resettableValue[T] from values.go (Set, String, Reset, errParse);
  - the Go standard library flag.FlagSet.Parse / parseOne loop that the
    iterator delegates to (modelled at the character level; byte-level Go
    indexing agrees with character-level indexing here because the only
    bytes inspected are the single-byte ASCII characters appearing as
    leading bytes of their own UTF-8 characters).

Flag cells are modelled by an inductive FlagVal covering the representative
kinds the repository registers: an accumulating string slice, a plain string
cell and a boolean cell (the boolean one has a fallible parser, strconv
ParseBool, routed through resettableValue.Set which classifies failures as
errParse and stores the parser result unconditionally).

Go error values are modelled as inductives carrying the data the code puts
into them; flag.ErrHelp and the distinct failf messages of the parse loop
become constructors of ParseError. The error-handling policy modelled is
ContinueOnError (the policy under which FlagSet.Parse returns its error to
the iterator; ExitOnError terminates the process and is outside a shallow
embedding).

Mutation through pointers becomes explicit state passing: methods return the
updated receiver. The iterator stores the matched set as an index into its
Sets list (Go stores the alias pointer; the index plays the same role since
Sets is not reordered during iteration).
-/

/-- Go error values relevant to values.go: the shared generic parse error
(var errParse) and arbitrary other errors such as those produced by the
strconv parsers. -/
inductive GoError where
  | errParse
  | other (msg : String)
deriving DecidableEq

/-- Errors produced by the Go standard library flag parse loop: the help
sentinel (flag.ErrHelp), bad flag syntax, undefined flag, a flag missing its
argument, and an invalid value rejected by the flag value's Set method. -/
inductive ParseError where
  | help
  | badSyntax (s : String)
  | notDefined (name : String)
  | needsArgument (s : String)
  | invalidValue (name value : String) (e : GoError)
deriving DecidableEq

/-- Model of strconv.ParseBool: the exact set of accepted literals; on any
other input it returns false together with a syntax error. -/
def parseBool (s : String) : Bool × Option GoError :=
  if s = "1" ∨ s = "t" ∨ s = "T" ∨ s = "true" ∨ s = "TRUE" ∨ s = "True" then
    (true, none)
  else if s = "0" ∨ s = "f" ∨ s = "F" ∨ s = "false" ∨ s = "FALSE" ∨ s = "False" then
    (false, none)
  else
    (false, some (GoError.other "invalid syntax"))

/-- A flag storage cell: the representative flag.Value implementations the
repository registers on its flag sets.
  - strSlice models StringSlice: an accumulating option (Set appends, Reset
    replaces the sequence with a fresh empty one);
  - str models resettableValue String built by StringVar (parser never
    fails);
  - boolv models resettableValue Bool built by BoolVar (IsBoolFlag true,
    parser is strconv.ParseBool). -/
inductive FlagVal where
  | strSlice (cur : List String)
  | str (cur defval : String)
  | boolv (cur defval : Bool)
deriving DecidableEq

/-- Model of the flag package boolFlag capability probe: resettableValue
reports its isBool field, true exactly for cells built by BoolVar. -/
def FlagVal.isBoolFlag : FlagVal → Bool
  | .strSlice _ => false
  | .str _ _ => false
  | .boolv _ _ => true

/-- Model of flage.Reset on each cell: StringSlice.Reset allocates a fresh
empty slice; resettableValue.Reset restores the stored default. -/
def FlagVal.reset : FlagVal → FlagVal
  | .strSlice _ => .strSlice []
  | .str _ d => .str d d
  | .boolv _ d => .boolv d d

/-- Model of the Set method of each cell.  StringSlice.Set appends
unconditionally and never fails.  The resettableValue cells run their parser,
store its returned value unconditionally, and report errParse in place of the
parser's own error (values.go Set). -/
def FlagVal.set : FlagVal → String → FlagVal × Option GoError
  | .strSlice cur, v => (.strSlice (cur ++ [v]), none)
  | .str _ d, v => (.str v d, none)
  | .boolv _ d, v =>
      let r := parseBool v
      (.boolv r.1 d, if r.2.isSome then some GoError.errParse else none)

/-- Splits a character list at the first occurrence of the equals sign,
returning the characters before it and, when found, the characters after it
(the loop in Go's parseOne that separates a flag name from an inline value). -/
def splitEq : List Char → List Char × Option (List Char)
  | [] => ([], none)
  | c :: cs =>
    if c = '=' then ([], some cs)
    else
      let r := splitEq cs
      (c :: r.1, r.2)

/-- Lookup in the formal flag table (Go stores a map keyed by flag name; flag
names are unique within a set because FlagSet.Var rejects duplicates, so a
first-match association list lookup is equivalent). -/
def lookupFlag : List (String × FlagVal) → String → Option FlagVal
  | [], _ => none
  | (n, v) :: rest, name => if n = name then some v else lookupFlag rest name

/-- Replaces the cell stored under a name in the formal flag table (Go
mutates the cell through the pointer held in the map). -/
def updateFlag : List (String × FlagVal) → String → FlagVal → List (String × FlagVal)
  | [], _, _ => []
  | (n, v) :: rest, name, v' =>
      if n = name then (n, v') :: rest else (n, v) :: updateFlag rest name v'

/-- Result of one round of Go's parseOne: whether a flag was consumed, the
updated formal table, the remaining arguments, and the error if any. -/
structure ParseOneResult where
  seen : Bool
  formal : List (String × FlagVal)
  args : List String
  perr : Option ParseError
deriving DecidableEq

/-- The shared tail of parseOne that calls Set on the matched cell: the cell
is written through its pointer even when Set reports an error (so the formal
table is updated in both branches), and the error is wrapped as an invalid
value failure. -/
def applySet (formal : List (String × FlagVal)) (nameStr value : String)
    (fv : FlagVal) (nextArgs : List String) : ParseOneResult :=
  match (fv.set value).2 with
  | some e => ⟨false, updateFlag formal nameStr (fv.set value).1, nextArgs,
                some (ParseError.invalidValue nameStr value e)⟩
  | none => ⟨true, updateFlag formal nameStr (fv.set value).1, nextArgs, none⟩

/-- The body of parseOne past the syntactic checks: look up the flag name;
when undefined, an undefined help or h flag is the help sentinel and any
other name is the undefined flag error; a boolean flag takes its inline
value or the literal true; any other flag takes its inline value or the next
argument and fails when neither exists. -/
def parseFlag (formal : List (String × FlagVal)) (s : String) (rest : List String)
    (nameStr : String) (valueOpt : Option String) : ParseOneResult :=
  match lookupFlag formal nameStr with
  | none =>
      if nameStr = "help" ∨ nameStr = "h" then
        ⟨false, formal, rest, some ParseError.help⟩
      else
        ⟨false, formal, rest, some (ParseError.notDefined nameStr)⟩
  | some fv =>
      if fv.isBoolFlag then
        applySet formal nameStr (valueOpt.getD "true") fv rest
      else
        match valueOpt, rest with
        | some value, _ => applySet formal nameStr value fv rest
        | none, value :: rest2 => applySet formal nameStr value fv rest2
        | none, [] => ⟨false, formal, rest, some (ParseError.needsArgument s)⟩

/-- Model of Go flag.FlagSet.parseOne: examines the next argument; stops
without error on a non-flag token or a bare double minus terminator (which it
consumes); reports bad syntax for a malformed flag token; splits an inline
value at the first equals sign past the first name character; treats an
undefined help or h flag as the help sentinel; boolean flags may omit their
value (defaulting to true), other flags take the inline value or the
following argument and fail when neither is present. -/
def parseOne (formal : List (String × FlagVal)) (args : List String) : ParseOneResult :=
  match args with
  | [] => ⟨false, formal, [], none⟩
  | s :: rest =>
    match s.data with
    | '-' :: c1 :: srest =>
      if c1 = '-' ∧ srest = [] then
        ⟨false, formal, rest, none⟩
      else
        match (if c1 = '-' then srest else c1 :: srest) with
        | [] => ⟨false, formal, s :: rest, some (ParseError.badSyntax s)⟩
        | n0 :: ntail =>
          if n0 = '-' ∨ n0 = '=' then
            ⟨false, formal, s :: rest, some (ParseError.badSyntax s)⟩
          else
            parseFlag formal s rest (String.mk (n0 :: (splitEq ntail).1))
              ((splitEq ntail).2.map String.mk)
    | _ => ⟨false, formal, s :: rest, none⟩

/-- The flag.FlagSet.Parse loop, driven by fuel for structural recursion; a
fuel of one more than the argument count always suffices because each round
that reports seen consumes at least one argument (parseLoopAux_fuel below
proves the result is fuel-insensitive beyond that bound, and parseLoop_eq
recovers the Go loop's recurrence). -/
def parseLoopAux : Nat → List (String × FlagVal) → List String →
    List (String × FlagVal) × List String × Option ParseError
  | 0, formal, args => (formal, args, none)
  | fuel + 1, formal, args =>
    let r := parseOne formal args
    if r.seen then parseLoopAux fuel r.formal r.args
    else (r.formal, r.args, r.perr)

/-- The flag.FlagSet.Parse loop: iterate parseOne until it reports no
progress, returning the error it stopped with (none when it simply reached a
non-flag token or the end). -/
def parseLoop (formal : List (String × FlagVal)) (args : List String) :
    List (String × FlagVal) × List String × Option ParseError :=
  parseLoopAux (args.length + 1) formal args

/-- An option-set: model of Go flag.FlagSet as used by the iterator — its
name (the command-matching key), the formal table of named flag cells, and
the leftover arguments recorded by the last Parse (what NArg and Args
expose). -/
structure FlagSet where
  name : String
  formal : List (String × FlagVal)
  args : List String
deriving DecidableEq

instance : Inhabited FlagSet := ⟨⟨"", [], []⟩⟩

/-- Model of flag.FlagSet.Parse with the ContinueOnError policy: record the
argument list, run the parse loop, and return the first error; the leftover
arguments at the point of stopping remain stored in the set. -/
def FlagSet.Parse (fs : FlagSet) (arguments : List String) : FlagSet × Option ParseError :=
  let r := parseLoop fs.formal arguments
  ({ fs with formal := r.1, args := r.2.1 }, r.2.2)

/-- Model of set.VisitAll over flage.Reset: every cell of the formal table is
reset to its default (VisitAll visits in sorted name order; the cells are
independent so the order is immaterial). -/
def resetAll (formal : List (String × FlagVal)) : List (String × FlagVal) :=
  formal.map (fun p => (p.1, p.2.reset))

/-- Iterator errors: ErrNoMatchingFlagSet, the ErrUnknownCommand wrap that
carries the offending head token, and a parse failure forwarded from the
matched set's Parse. -/
inductive IterError where
  | noMatchingFlagSet
  | unknownCommand (head : String)
  | parseFailed (e : ParseError)
deriving DecidableEq

/-- The subcommand iterator state: remaining arguments, the fixed list of
option-sets, the index of the set matched by findSet (Go keeps the alias
pointer), the error of the last Next, and whether any step ever succeeded. -/
structure flagSetIterator where
  Args : List String
  Sets : List FlagSet
  curr : Option Nat
  err : Option IterError
  parsedOne : Bool
deriving DecidableEq

/-- Model of newFlagSetIterator: a fresh iterator over the given arguments
and sets. -/
def newFlagSetIterator (args : List String) (sets : List FlagSet) : flagSetIterator :=
  ⟨args, sets, none, none, false⟩

/-- Model of findSet's scan: the index of the first set whose name equals the
given name (Go caches the name list on first use and scans it in order; the
cache is transparent because set names never change during iteration). -/
def findSetIdx (sets : List FlagSet) (name : String) : Option Nat :=
  match sets with
  | [] => none
  | s :: rest =>
    if s.name = name then some 0
    else (findSetIdx rest name).map (· + 1)

/-- Model of flagSetIterator.Next.  Clears the previous error; with no
arguments left reports no match only when nothing ever matched; otherwise
looks up the head token, reports the unknown command error without consuming
it when the lookup fails, and otherwise resets every cell of the matched set,
parses the tail, and on success keeps exactly the trailing arguments the set
did not consume. -/
def flagSetIterator.Next (it : flagSetIterator) : Bool × flagSetIterator :=
  match it.Args with
  | [] =>
    if it.parsedOne then (false, { it with err := none })
    else (false, { it with err := some IterError.noMatchingFlagSet })
  | head :: rest =>
    match findSetIdx it.Sets head with
    | none => (false, { it with err := some (IterError.unknownCommand head) })
    | some i =>
      let set0 := it.Sets.getD i default
      let pr := FlagSet.Parse { set0 with formal := resetAll set0.formal } rest
      let sets2 := it.Sets.set i pr.1
      match pr.2 with
      | some e =>
        (false, { it with
          Sets := sets2,
          curr := some i,
          err := some (IterError.parseFailed e) })
      | none =>
        (true, { it with
          Sets := sets2,
          curr := some i,
          err := none,
          Args := (head :: rest).drop ((head :: rest).length - pr.1.args.length),
          parsedOne := true })

/-- Model of flagSetIterator.Advance: skip the given number of arguments,
clamping to empty and reporting false when the count reaches or exceeds the
remaining length. -/
def flagSetIterator.Advance (it : flagSetIterator) (i : Nat) : Bool × flagSetIterator :=
  if it.Args.length ≤ i then
    (false, { it with Args := it.Args.drop it.Args.length })
  else
    (true, { it with Args := it.Args.drop i })

/-- The generic resettable value of values.go: the storage cell content (the
target of the bound pointer), the default, the parse and render functions,
and the boolean-flag marker. -/
structure resettableValue (T : Type) where
  ptr : T
  defvalue : T
  parser : String → T × Option GoError
  stringer : T → String
  isBool : Bool

/-- Model of resettableValue.Set: run the parser, replace its error with the
shared errParse classification, store the parser's returned value through the
pointer unconditionally, and return the classified error. -/
def resettableValue.Set {T : Type} (b : resettableValue T) (s : String) :
    resettableValue T × Option GoError :=
  let r := b.parser s
  ({ b with ptr := r.1 }, if r.2.isSome then some GoError.errParse else none)

/-- Model of resettableValue.String: the receiver is a possibly nil pointer
(the flag package invokes String on a zero value of the pointer type when
printing defaults); a nil receiver renders as the empty string, otherwise the
stored value is rendered with the stringer. -/
def resettableValue.render {T : Type} : Option (resettableValue T) → String
  | none => ""
  | some b => b.stringer b.ptr

/-- Model of resettableValue.Reset: restore the default through the pointer. -/
def resettableValue.Reset {T : Type} (b : resettableValue T) : resettableValue T :=
  { b with ptr := b.defvalue }

/-- A concrete resettableValue as built by BoolVar: parser is strconv
ParseBool, stringer is strconv.FormatBool, marked as a boolean flag. -/
def sampleBoolVar : resettableValue Bool :=
  { ptr := false, defvalue := false, parser := parseBool,
    stringer := fun b => if b then "true" else "false", isBool := true }

/-- The option-set of the reuse-isolation scenario: a set named cmd with a
single accumulating option x. -/
def c1set : FlagSet := ⟨"cmd", [("x", FlagVal.strSlice [])], []⟩

/-- Iterator over the reuse-isolation argument vector. -/
def c1it0 : flagSetIterator := newFlagSetIterator ["cmd", "-x", "a", "cmd"] [c1set]

/-- Iterator whose first step matches the set named cmd but fails its parse
on an undefined flag. -/
def c5it0 : flagSetIterator := newFlagSetIterator ["cmd", "-bogus"] [⟨"cmd", [], []⟩]

/-- Iterator over an empty argument vector against a non-empty set list. -/
def c3it0 : flagSetIterator := newFlagSetIterator [] [c1set]

/-- Iterator whose head token matches no set name. -/
def c4it0 : flagSetIterator :=
  newFlagSetIterator ["frobnicate"] [⟨"deploy", [], []⟩, ⟨"test", [], []⟩]

/-- A second set that shares the name cmd with c1set but has a different
option, to exercise duplicate-name lookup. -/
def c6setB : FlagSet := ⟨"cmd", [("y", FlagVal.strSlice [])], []⟩

/-- Iterator over two sets with the duplicate name cmd. -/
def c6it0 : flagSetIterator := newFlagSetIterator ["cmd"] [c1set, c6setB]

theorem applySet_args (formal : List (String × FlagVal)) (nameStr value : String)
    (fv : FlagVal) (nextArgs : List String) :
    (applySet formal nameStr value fv nextArgs).args = nextArgs := by
  unfold applySet
  cases (fv.set value).2 <;> rfl

theorem parseFlag_args_suffix (formal : List (String × FlagVal)) (s : String)
    (rest : List String) (nameStr : String) (valueOpt : Option String) :
    (parseFlag formal s rest nameStr valueOpt).args <:+ rest := by
  unfold parseFlag
  split
  · split
    · exact List.suffix_refl _
    · exact List.suffix_refl _
  · split
    · rw [applySet_args]
    · split
      · rw [applySet_args]
      · rw [applySet_args]
        exact List.suffix_cons _ _
      · exact List.suffix_refl _

theorem parseOne_cases (formal : List (String × FlagVal)) (args : List String) :
    ((parseOne formal args).seen = false ∧ (parseOne formal args).args = args)
    ∨ (parseOne formal args).args.length < args.length := by
  unfold parseOne
  split
  · exact Or.inl ⟨rfl, rfl⟩
  · rename_i s rest
    split
    · split
      · exact Or.inr (by simp)
      · split
        · exact Or.inl ⟨rfl, rfl⟩
        · split
          · exact Or.inl ⟨rfl, rfl⟩
          · refine Or.inr ?_
            simp only [List.length_cons]
            exact Nat.lt_succ_of_le (parseFlag_args_suffix formal s rest _ _).length_le
    · exact Or.inl ⟨rfl, rfl⟩

theorem parseOne_args_suffix (formal : List (String × FlagVal)) (args : List String) :
    (parseOne formal args).args <:+ args := by
  unfold parseOne
  split
  · exact List.suffix_refl _
  · rename_i s rest
    split
    · split
      · exact List.suffix_cons _ _
      · split
        · exact List.suffix_refl _
        · split
          · exact List.suffix_refl _
          · exact (parseFlag_args_suffix formal s rest _ _).trans (List.suffix_cons _ _)
    · exact List.suffix_refl _

theorem parseOne_seen_length (formal : List (String × FlagVal)) (args : List String)
    (h : (parseOne formal args).seen = true) :
    (parseOne formal args).args.length < args.length := by
  rcases parseOne_cases formal args with ⟨hs, _⟩ | hlt
  · simp [hs] at h
  · exact hlt

/-- The value of the parse loop does not depend on the fuel once the fuel
exceeds the number of remaining arguments. -/
theorem parseLoopAux_fuel (f1 : Nat) : ∀ (f2 : Nat) (formal : List (String × FlagVal))
    (args : List String), args.length < f1 → args.length < f2 →
    parseLoopAux f1 formal args = parseLoopAux f2 formal args := by
  induction f1 with
  | zero => intro f2 formal args h1 _; exact absurd h1 (Nat.not_lt_zero _)
  | succ f1 ih =>
    intro f2 formal args h1 h2
    cases f2 with
    | zero => exact absurd h2 (Nat.not_lt_zero _)
    | succ f2 =>
      simp only [parseLoopAux]
      by_cases hseen : (parseOne formal args).seen
      · rw [if_pos hseen, if_pos hseen]
        have hlt := parseOne_seen_length formal args hseen
        exact ih f2 _ _ (Nat.lt_of_lt_of_le hlt (Nat.le_of_lt_succ h1))
          (Nat.lt_of_lt_of_le hlt (Nat.le_of_lt_succ h2))
      · rw [if_neg hseen, if_neg hseen]

/-- The Go loop recurrence of flag.FlagSet.Parse: run one round of parseOne
and either continue on the shortened arguments or stop with its result. -/
theorem parseLoop_eq (formal : List (String × FlagVal)) (args : List String) :
    parseLoop formal args =
      if (parseOne formal args).seen then
        parseLoop (parseOne formal args).formal (parseOne formal args).args
      else
        ((parseOne formal args).formal, (parseOne formal args).args,
          (parseOne formal args).perr) := by
  unfold parseLoop
  simp only [parseLoopAux]
  by_cases hseen : (parseOne formal args).seen
  · rw [if_pos hseen, if_pos hseen]
    exact parseLoopAux_fuel _ _ _ _ (parseOne_seen_length formal args hseen)
      (Nat.lt_succ_self _)
  · rw [if_neg hseen, if_neg hseen]

/-- The parse loop's leftover arguments are a suffix of the arguments it was
given. -/
theorem parseLoop_args_suffix (formal : List (String × FlagVal)) (args : List String) :
    (parseLoop formal args).2.1 <:+ args := by
  rw [parseLoop_eq]
  by_cases hseen : (parseOne formal args).seen
  · rw [if_pos hseen]
    exact (parseLoop_args_suffix _ _).trans (parseOne_args_suffix formal args)
  · rw [if_neg hseen]
    exact parseOne_args_suffix formal args
termination_by args.length
decreasing_by exact parseOne_seen_length formal args hseen

/-- Dropping everything before a suffix recovers exactly that suffix: the
slice expression of Next that keeps the last NArg arguments. -/
theorem suffix_drop_eq {α : Type} (l t : List α) (h : t <:+ l) :
    l.drop (l.length - t.length) = t := by
  obtain ⟨u, rfl⟩ := h
  have hlen : (u ++ t).length - t.length = u.length := by
    simp [List.length_append]
  rw [hlen]
  exact List.drop_left u t

/-- Reading back the element just written by set. -/
theorem getD_set_self {α : Type} (l : List α) (i : Nat) (a d : α) (h : i < l.length) :
    (l.set i a).getD i d = a := by
  induction l generalizing i with
  | nil => exact absurd h (Nat.not_lt_zero _)
  | cons x xs ih =>
    cases i with
    | zero => rfl
    | succ n =>
      have hn : n < xs.length := by simpa using h
      simpa [List.set, List.getD] using ih n hn

/-- A successful findSet lookup returns an index inside the set list. -/
theorem findSetIdx_lt_length (sets : List FlagSet) (name : String) (i : Nat)
    (h : findSetIdx sets name = some i) : i < sets.length := by
  induction sets generalizing i with
  | nil => simp [findSetIdx] at h
  | cons s rest ih =>
    unfold findSetIdx at h
    by_cases hs : s.name = name
    · rw [if_pos hs] at h
      cases h
      simp
    · rw [if_neg hs] at h
      cases ho : findSetIdx rest name with
      | none => rw [ho] at h; simp at h
      | some j =>
        rw [ho] at h
        simp at h
        have hj := ih j ho
        simp only [List.length_cons]
        omega

/-- When no set carries the requested name the lookup fails. -/
theorem findSetIdx_none (sets : List FlagSet) (name : String)
    (h : ∀ s ∈ sets, s.name ≠ name) : findSetIdx sets name = none := by
  induction sets with
  | nil => rfl
  | cons s rest ih =>
    unfold findSetIdx
    rw [if_neg (h s (by simp))]
    rw [ih (fun t ht => h t (by simp [ht]))]
    rfl

/-- The lookup scans the set list in order and stops at the first name
match, regardless of later duplicates. -/
theorem findSetIdx_first_match (pre : List FlagSet) (s : FlagSet) (post : List FlagSet)
    (name : String) (hs : s.name = name) (hpre : ∀ t ∈ pre, t.name ≠ name) :
    findSetIdx (pre ++ s :: post) name = some pre.length := by
  induction pre with
  | nil =>
    unfold findSetIdx
    simp [hs]
  | cons p ps ih =>
    unfold findSetIdx
    rw [List.cons_append]
    simp only []
    rw [if_neg (hpre p (by simp))]
    rw [ih (fun t ht => hpre t (by simp [ht]))]
    rfl

/-- The parse a step of Next performs when entry i matched: the matched set
is first reset, then parses the arguments after the head token. -/
def stepParse (it : flagSetIterator) (i : Nat) (rest : List String) :
    FlagSet × Option ParseError :=
  FlagSet.Parse
    { it.Sets.getD i default with formal := resetAll (it.Sets.getD i default).formal } rest

/-- Characterization of Next on an empty argument list. -/
theorem Next_empty (it : flagSetIterator) (hA : it.Args = []) :
    it.Next = (false, { it with
      err := if it.parsedOne then none else some IterError.noMatchingFlagSet }) := by
  unfold flagSetIterator.Next
  rw [hA]
  by_cases hp : it.parsedOne <;> simp [hp]

/-- Characterization of Next when the head token matches no set name. -/
theorem Next_unknown (it : flagSetIterator) (head : String) (rest : List String)
    (hA : it.Args = head :: rest) (hf : findSetIdx it.Sets head = none) :
    it.Next = (false, { it with err := some (IterError.unknownCommand head) }) := by
  unfold flagSetIterator.Next
  rw [hA]
  simp only [hf]

/-- Characterization of Next when the head token matches the set at index i:
the outcome is decided by the parse of the reset set over the remaining
tokens, with the set list updated with the mutated set in either case. -/
theorem Next_found (it : flagSetIterator) (head : String) (rest : List String) (i : Nat)
    (hA : it.Args = head :: rest) (hf : findSetIdx it.Sets head = some i) :
    it.Next =
      (match (stepParse it i rest).2 with
       | some e => (false, { it with
           Sets := it.Sets.set i (stepParse it i rest).1,
           curr := some i,
           err := some (IterError.parseFailed e) })
       | none => (true, { it with
           Sets := it.Sets.set i (stepParse it i rest).1,
           curr := some i,
           err := none,
           Args := (head :: rest).drop
             ((head :: rest).length - (stepParse it i rest).1.args.length),
           parsedOne := true })) := by
  unfold flagSetIterator.Next stepParse
  rw [hA]
  simp only [hf]

/-- C1: in every Next step whose head argument matches an option-set, the
stored outcome for that set is the parse of the set with every option reset
to its default (reset happens before the segment is parsed); consequently,
parsing the vector of tokens cmd, -x, a, cmd against a single set named cmd
holding an accumulating option x yields, after the second successful Next,
an empty accumulation for x rather than the value a carried over from the
first round. -/
theorem C1_reset_before_parse :
    (∀ (it : flagSetIterator) (head : String) (rest : List String) (i : Nat),
        it.Args = head :: rest →
        findSetIdx it.Sets head = some i →
        (it.Next).2.Sets.getD i default = (stepParse it i rest).1)
    ∧ ((c1it0.Next).1 = true
       ∧ lookupFlag ((c1it0.Next).2.Sets.getD 0 default).formal "x"
           = some (FlagVal.strSlice ["a"])
       ∧ (((c1it0.Next).2).Next).1 = true
       ∧ lookupFlag ((((c1it0.Next).2).Next).2.Sets.getD 0 default).formal "x"
           = some (FlagVal.strSlice [])) := by
  constructor
  · intro it head rest i hA hf
    rw [Next_found it head rest i hA hf]
    have hlt := findSetIdx_lt_length it.Sets head i hf
    cases hpr : (stepParse it i rest).2 <;>
      simpa using getD_set_self it.Sets i (stepParse it i rest).1 default hlt
  · decide

/-- Witness for the universal clause of C1 at the concrete reuse scenario. -/
theorem C1_reset_before_parse_witness :
    (c1it0.Next).2.Sets.getD 0 default = (stepParse c1it0 0 ["-x", "a", "cmd"]).1 :=
  C1_reset_before_parse.1 c1it0 "cmd" ["-x", "a", "cmd"] 0 rfl (by decide)

/-- C2: every successful Next step sets the remaining arguments to exactly
the unparsed tail of the matched set (the trailing tokens it did not
consume), strictly shrinking the remaining arguments by at least one token;
and across every step, successful or not, the remaining argument length
never grows. -/
theorem C2_tail_exact_and_shrinking :
    ∀ (it : flagSetIterator),
      ((it.Next).1 = true →
        ∃ i, (it.Next).2.curr = some i
          ∧ (it.Next).2.Args = ((it.Next).2.Sets.getD i default).args
          ∧ (it.Next).2.Args.length < it.Args.length)
      ∧ (it.Next).2.Args.length ≤ it.Args.length := by
  intro it
  cases hA : it.Args with
  | nil =>
    rw [Next_empty it hA]
    refine ⟨fun h => by simp at h, ?_⟩
    simp [hA]
  | cons head rest =>
    cases hf : findSetIdx it.Sets head with
    | none =>
      rw [Next_unknown it head rest hA hf]
      exact ⟨fun h => by simp at h, by simp [hA]⟩
    | some i =>
      rw [Next_found it head rest i hA hf]
      cases hpr : (stepParse it i rest).2 with
      | some e =>
        exact ⟨fun h => by simp at h, by simp [hA]⟩
      | none =>
        have hsuf : (stepParse it i rest).1.args <:+ rest :=
          parseLoop_args_suffix _ rest
        have hk : (stepParse it i rest).1.args.length ≤ rest.length :=
          hsuf.length_le
        have hdrop : (head :: rest).drop
            ((head :: rest).length - (stepParse it i rest).1.args.length)
            = (stepParse it i rest).1.args := by
          have h1 : (head :: rest).length - (stepParse it i rest).1.args.length
              = (rest.length - (stepParse it i rest).1.args.length) + 1 := by
            simp only [List.length_cons]
            omega
          rw [h1, List.drop_succ_cons]
          exact suffix_drop_eq rest _ hsuf
        have hlt := findSetIdx_lt_length it.Sets head i hf
        constructor
        · intro _
          refine ⟨i, rfl, ?_, ?_⟩
          · simp only [hdrop]
            rw [getD_set_self it.Sets i (stepParse it i rest).1 default hlt]
          · simp only [hdrop, hA]
            simp only [List.length_cons]
            omega
        · simp only [hdrop, hA]
          simp only [List.length_cons]
          omega

/-- Witness for C2 at the reuse scenario iterator, whose first step
succeeds. -/
theorem C2_tail_exact_and_shrinking_witness :
    ∃ i, (c1it0.Next).2.curr = some i
      ∧ (c1it0.Next).2.Args = ((c1it0.Next).2.Sets.getD i default).args
      ∧ (c1it0.Next).2.Args.length < c1it0.Args.length :=
  (C2_tail_exact_and_shrinking c1it0).1 (by decide)

/-- C3: with the remaining arguments empty, Next reports false; the error is
the no-matching-commands sentinel when no step ever succeeded and nil when
at least one did; in particular a fresh iterator over the empty vector and
any non-empty set list reports the sentinel. -/
theorem C3_empty_arguments :
    (∀ (it : flagSetIterator), it.Args = [] →
      (it.Next).1 = false
      ∧ (it.parsedOne = false →
          (it.Next).2.err = some IterError.noMatchingFlagSet)
      ∧ (it.parsedOne = true → (it.Next).2.err = none))
    ∧ (∀ (sets : List FlagSet), sets ≠ [] →
      ((newFlagSetIterator [] sets).Next).1 = false
      ∧ ((newFlagSetIterator [] sets).Next).2.err
          = some IterError.noMatchingFlagSet) := by
  constructor
  · intro it hA
    rw [Next_empty it hA]
    refine ⟨rfl, ?_, ?_⟩ <;> intro hp <;> simp [hp]
  · intro sets _
    rw [Next_empty _ rfl]
    exact ⟨rfl, rfl⟩

/-- Witness for C3 at the empty-vector iterator over a non-empty set list. -/
theorem C3_empty_arguments_witness :
    ((newFlagSetIterator [] [c1set]).Next).1 = false
    ∧ ((newFlagSetIterator [] [c1set]).Next).2.err
        = some IterError.noMatchingFlagSet :=
  C3_empty_arguments.2 [c1set] (by simp)

/-- C4: when the head token equals no set name, Next reports false, the
error is the unknown-command error carrying the head token, no set is
recorded as matched by the step (the matched index is unchanged), and the
arguments including the head token are left untouched, as is the set list. -/
theorem C4_unknown_command :
    ∀ (it : flagSetIterator) (head : String) (rest : List String),
      it.Args = head :: rest →
      (∀ s ∈ it.Sets, s.name ≠ head) →
      (it.Next).1 = false
      ∧ (it.Next).2.err = some (IterError.unknownCommand head)
      ∧ (it.Next).2.curr = it.curr
      ∧ (it.Next).2.Args = it.Args
      ∧ (it.Next).2.Sets = it.Sets := by
  intro it head rest hA hnames
  rw [Next_unknown it head rest hA (findSetIdx_none it.Sets head hnames)]
  exact ⟨rfl, rfl, rfl, rfl, rfl⟩

/-- Witness for C4 at the frobnicate example against deploy and test. -/
theorem C4_unknown_command_witness :
    (c4it0.Next).1 = false
    ∧ (c4it0.Next).2.err = some (IterError.unknownCommand "frobnicate")
    ∧ (c4it0.Next).2.curr = c4it0.curr
    ∧ (c4it0.Next).2.Args = c4it0.Args
    ∧ (c4it0.Next).2.Sets = c4it0.Sets :=
  C4_unknown_command c4it0 "frobnicate" [] rfl (by decide)

/-- Counterexample to C5 as stated: with the set named cmd (holding no
flags) and arguments cmd, -bogus, the parse of the matched set fails, and
the remaining arguments still hold the head token cmd — they are not the
post-match-removal tail consisting of -bogus alone, so the head is not
consumed on a parse failure. -/
theorem C5_counterexample :
    (c5it0.Next).1 = false
    ∧ (c5it0.Next).2.err
        = some (IterError.parseFailed (ParseError.notDefined "bogus"))
    ∧ (c5it0.Next).2.Args = ["cmd", "-bogus"]
    ∧ ¬ (c5it0.Next).2.Args = ["-bogus"] := by
  decide

/-- C5 amended: when a matched set's parse of the trailing tokens fails
(including the help sentinel), Next reports false with the underlying parse
error preserved, and the remaining arguments are left entirely unchanged —
the head command-name token included, nothing is consumed on failure. -/
theorem C5_parse_failure_frame :
    ∀ (it : flagSetIterator) (head : String) (rest : List String) (i : Nat)
      (e : ParseError),
      it.Args = head :: rest →
      findSetIdx it.Sets head = some i →
      (stepParse it i rest).2 = some e →
      (it.Next).1 = false
      ∧ (it.Next).2.err = some (IterError.parseFailed e)
      ∧ (it.Next).2.Args = it.Args := by
  intro it head rest i e hA hf hpr
  rw [Next_found it head rest i hA hf, hpr]
  exact ⟨rfl, rfl, rfl⟩

/-- Witness for the amended C5 at the failing-parse example. -/
theorem C5_parse_failure_frame_witness :
    (c5it0.Next).1 = false
    ∧ (c5it0.Next).2.err
        = some (IterError.parseFailed (ParseError.notDefined "bogus"))
    ∧ (c5it0.Next).2.Args = c5it0.Args :=
  C5_parse_failure_frame c5it0 "cmd" ["-bogus"] 0
    (ParseError.notDefined "bogus") rfl (by decide) (by decide)

/-- C6: with duplicate set names, the name lookup of the iterator always
selects the first set in list order carrying the head name, even when a
later set carries the same name; the step records that first index as the
matched set and never reports an unknown-command error for the duplicated
name. -/
theorem C6_first_match_wins :
    ∀ (pre post : List FlagSet) (s : FlagSet) (head : String) (rest : List String)
      (it : flagSetIterator),
      s.name = head →
      (∀ t ∈ pre, t.name ≠ head) →
      (∃ t ∈ post, t.name = head) →
      it.Sets = pre ++ s :: post →
      it.Args = head :: rest →
      findSetIdx it.Sets head = some pre.length
      ∧ (it.Next).2.curr = some pre.length
      ∧ (it.Next).2.err ≠ some (IterError.unknownCommand head) := by
  intro pre post s head rest it hs hpre _ hsets hA
  have hfind : findSetIdx it.Sets head = some pre.length := by
    rw [hsets]
    exact findSetIdx_first_match pre s post head hs hpre
  refine ⟨hfind, ?_, ?_⟩
  · rw [Next_found it head rest pre.length hA hfind]
    cases hpr : (stepParse it pre.length rest).2 <;> simp
  · rw [Next_found it head rest pre.length hA hfind]
    cases hpr : (stepParse it pre.length rest).2 <;> simp

/-- Witness for C6 at two sets both named cmd. -/
theorem C6_first_match_wins_witness :
    findSetIdx c6it0.Sets "cmd" = some 0
    ∧ (c6it0.Next).2.curr = some 0
    ∧ (c6it0.Next).2.err ≠ some (IterError.unknownCommand "cmd") :=
  C6_first_match_wins [] [c6setB] c1set "cmd" [] c6it0
    rfl (by simp) ⟨c6setB, by simp, rfl⟩ rfl rfl

/-- C7: Advance with a count at or beyond the remaining length empties the
remaining arguments and reports false, and a following Next behaves as on
empty arguments (the no-match sentinel when nothing ever matched, nil
otherwise); with a smaller count it drops exactly that many leading tokens
and reports true. -/
theorem C7_advance_boundary :
    ∀ (it : flagSetIterator) (k : Nat),
      (it.Args.length ≤ k →
        (it.Advance k).1 = false
        ∧ (it.Advance k).2.Args = []
        ∧ ((it.Advance k).2.Next).1 = false
        ∧ (it.parsedOne = false →
            ((it.Advance k).2.Next).2.err = some IterError.noMatchingFlagSet)
        ∧ (it.parsedOne = true → ((it.Advance k).2.Next).2.err = none))
      ∧ (k < it.Args.length →
        (it.Advance k).1 = true ∧ (it.Advance k).2.Args = it.Args.drop k) := by
  intro it k
  constructor
  · intro hk
    unfold flagSetIterator.Advance
    rw [if_pos hk]
    have hempty :
        ({ it with Args := it.Args.drop it.Args.length } : flagSetIterator).Args
          = [] := by
      simp
    rw [Next_empty _ hempty]
    refine ⟨rfl, hempty, rfl, ?_, ?_⟩ <;> intro hp <;> simp [hp]
  · intro hk
    unfold flagSetIterator.Advance
    rw [if_neg (Nat.not_le.mpr hk)]
    exact ⟨rfl, rfl⟩

/-- Witness for C7 at the reuse iterator with counts beyond and within the
remaining length. -/
theorem C7_advance_boundary_witness :
    ((c1it0.Advance 10).1 = false
     ∧ (c1it0.Advance 10).2.Args = []
     ∧ ((c1it0.Advance 10).2.Next).1 = false
     ∧ (c1it0.parsedOne = false →
         ((c1it0.Advance 10).2.Next).2.err = some IterError.noMatchingFlagSet)
     ∧ (c1it0.parsedOne = true → ((c1it0.Advance 10).2.Next).2.err = none))
    ∧ ((c1it0.Advance 1).1 = true
       ∧ (c1it0.Advance 1).2.Args = c1it0.Args.drop 1) :=
  ⟨(C7_advance_boundary c1it0 10).1 (by decide),
   (C7_advance_boundary c1it0 1).2 (by decide)⟩

/-- C8: rendering a resettable value returns the current value formatted by
its stringer, and a nil receiver (the flag package calls the String method
on a zero pointer value when printing defaults) renders as the empty string
instead of failing. -/
theorem C8_render_nil_safe :
    ∀ (T : Type) (b : resettableValue T),
      resettableValue.render (some b) = b.stringer b.ptr
      ∧ resettableValue.render (none : Option (resettableValue T)) = "" := by
  intro T b
  exact ⟨rfl, rfl⟩

/-- C9: whenever the parse function fails on an input, Set returns the one
shared generic parse-error value no matter what the parser's own error was;
whenever the parse function succeeds, Set returns no error and the stored
current value is the parsed input. -/
theorem C9_set_error_classification :
    ∀ (T : Type) (b : resettableValue T) (s : String) (e : GoError),
      ((b.parser s).2 = some e → (b.Set s).2 = some GoError.errParse)
      ∧ ((b.parser s).2 = none →
          (b.Set s).2 = none ∧ ((b.Set s).1).ptr = (b.parser s).1) := by
  intro T b s e
  constructor
  · intro hf
    simp [resettableValue.Set, hf]
  · intro hs
    simp [resettableValue.Set, hs]

/-- Witness for C9 on the BoolVar cell: ParseBool rejects the input zz with
its own syntax error yet Set reports the shared parse error, and accepts the
input true with the value stored. -/
theorem C9_set_error_classification_witness :
    ((sampleBoolVar.Set "zz").2 = some GoError.errParse)
    ∧ ((sampleBoolVar.Set "true").2 = none
       ∧ ((sampleBoolVar.Set "true").1).ptr = (sampleBoolVar.parser "true").1) :=
  ⟨(C9_set_error_classification Bool sampleBoolVar "zz"
      (GoError.other "invalid syntax")).1 (by decide),
   (C9_set_error_classification Bool sampleBoolVar "true"
      (GoError.other "invalid syntax")).2 (by decide)⟩

/-- C10: Set writes the parser's returned value into the bound storage
unconditionally, also when parsing fails, so the previously stored value is
never retained; concretely, a failed Set on a BoolVar cell that currently
holds true leaves the parser's error-case result false (the zero value) in
storage, together with the shared parse error. -/
theorem C10_set_writes_unconditionally :
    (∀ (T : Type) (b : resettableValue T) (s : String),
        ((b.Set s).1).ptr = (b.parser s).1)
    ∧ ((({ sampleBoolVar with ptr := true } : resettableValue Bool).Set "zz").1.ptr
        = false
       ∧ (({ sampleBoolVar with ptr := true } : resettableValue Bool).Set "zz").2
        = some GoError.errParse) := by
  refine ⟨fun T b s => rfl, by decide, by decide⟩
